import Mathlib

/-!
# dotweb `core/state.go`: runtime state and metrics aggregation

A shallow embedding of `src/core/state.go` (package `core`): the cumulative
counters, the six counter stores, the three bounded ingestion channels, the
aggregation worker `handleInfo` and the eviction sweeper
`checkAndRemoveIntervalData`.

Conventions of the embedding

* `uint64` values are `Nat`; every machine addition is written `% 2 ^ 64`.
* A Go `string` is a Lean `String`; `strings.ToLower` (Unicode case mapping of
  the Go standard library) is a parameter `ToLower : String → String` of the
  worker, so every statement holds for the library function whatever it does.
* A buffered channel is the list of records it holds (oldest first).  A send on
  a full channel and a receive on an empty one do not complete: the operation
  yields `none`.
* `time.Time` is an instant (nanoseconds since the Unix epoch, unbounded) with
  the offset of its location; each clock reading is an input.
* The worker loop is one `select` iteration per step; the interleaving of
  producers and worker is a list of `Event`s.
-/

namespace core

/-! ## Constants -/

/-- Size of the `uint64` range. -/
def uint64Size : Nat := 2 ^ 64

/-- Layout of an interval key: `minuteTimeLayout = "200601021504"`. -/
def minuteTimeLayout : String := "200601021504"

/-- The constant `defaultReserveMinutes = 60`. -/
def defaultReserveMinutes : Int := 60

/-- The constant `defaultCheckTimeMinutes = 10`. -/
def defaultCheckTimeMinutes : Int := 10

/-- Capacity of each ingestion channel: `make(chan ..., 1000)`. -/
def chanCapacity : Nat := 1000

/-- The literal `"/dotweb/"` tested by the facade. -/
def reservedPath : String := "/dotweb/"

/-! ## `strings.Index` -/

namespace strings

/-- Scan for the first occurrence of `substr` in the remaining text, `off` being
the byte offset of the remaining text; `-1` when there is none. -/
def indexFrom (substr : List Char) : List Char → Nat → Int
  | [], off => if substr.isPrefixOf [] then (off : Int) else -1
  | c :: cs, off =>
    if substr.isPrefixOf (c :: cs) then (off : Int)
    else indexFrom substr cs (off + c.utf8Size)

/-- Go `strings.Index(s, substr)`: byte offset of the first occurrence of
`substr` in `s`, or `-1`. -/
def Index (s substr : String) : Int := indexFrom substr.data s.data 0

end strings

/-! ## The counter store -/

/-- First value bound to `key` in an association list. -/
def lookupKey (key : String) : List (String × Nat) → Option Nat
  | [] => none
  | (k, v) :: rest => if k = key then some v else lookupKey key rest

/-- Bind `key` to `v`: overwrite the binding when there is one, add it otherwise. -/
def upsert (key : String) (v : Nat) : List (String × Nat) → List (String × Nat)
  | [] => [(key, v)]
  | (k, w) :: rest => if k = key then (k, v) :: rest else (k, w) :: upsert key v rest

/-- Modelled from the spec: the Bucketed Counter Store `ItemContext`, whose
source file is not part of src/ (only its callers in `state.go` are).  Spec
section 4.2: a mapping from string key to unsigned 64-bit counter with
get / set / remove / len / snapshot under a reader/writer lock; writers take
an exclusive lock per mutation.  `contextMap` lists the bindings, `readers`
counts the shared holds that are outstanding (taken with `RLock` and not yet
given back with `RUnlock`). -/
structure ItemContext where
  contextMap : List (String × Nat)
  readers : Nat
deriving DecidableEq, Repr

/-- Modelled from the spec: `NewItemContext()`, an empty store nobody holds. -/
def NewItemContext : ItemContext := { contextMap := [], readers := 0 }

namespace ItemContext

/-- Modelled from the spec: `Get(key) → uint64`, 0 if the key is absent. -/
def GetUInt64 (ctx : ItemContext) (key : String) : Nat :=
  match lookupKey key ctx.contextMap with
  | some v => v
  | none => 0

/-- Modelled from the spec: `Set(key, value)`, an upsert under the exclusive
lock.  The exclusive lock is not granted while a shared hold is outstanding, so
the call does not complete (`none`) in that case. -/
def Set (ctx : ItemContext) (key : String) (v : Nat) : Option ItemContext :=
  if ctx.readers = 0 then some { ctx with contextMap := upsert key v ctx.contextMap }
  else none

/-- Modelled from the spec: `Remove(key)`, no-op if absent, under the exclusive
lock (`none` while a shared hold is outstanding, as for `Set`). -/
def Remove (ctx : ItemContext) (key : String) : Option ItemContext :=
  if ctx.readers = 0 then
    some { ctx with contextMap := ctx.contextMap.filter (fun p => decide (p.1 ≠ key)) }
  else none

/-- Modelled from the spec: `Len() → int`, the number of bindings. -/
def Len (ctx : ItemContext) : Nat := ctx.contextMap.length

/-- Modelled from the spec: `Snapshot()` / `GetCurrentMap()`, the bindings to
range over. -/
def GetCurrentMap (ctx : ItemContext) : List (String × Nat) := ctx.contextMap

/-- Modelled from the spec: `AcquireReadLock`, one more shared hold. -/
def RLock (ctx : ItemContext) : ItemContext := { ctx with readers := ctx.readers + 1 }

/-- Modelled from the spec: `ReleaseReadLock`, one shared hold given back. -/
def RUnlock (ctx : ItemContext) : ItemContext := { ctx with readers := ctx.readers - 1 }

/-- The key is bound in the store. -/
def Has (ctx : ItemContext) (key : String) : Bool := (lookupKey key ctx.contextMap).isSome

end ItemContext

/-! ## The `time` package, for the layout `200601021504` -/

namespace time

/-- A `time.Time`: an instant as nanoseconds since 1970-01-01T00:00:00Z, and
the offset (seconds east of UTC) of its location at that instant. -/
structure Time where
  unixNano : Int
  offset : Int
deriving DecidableEq, Repr

/-- Gregorian leap year. -/
def isLeap (year : Int) : Bool :=
  decide (year % 4 = 0) && (decide (year % 100 ≠ 0) || decide (year % 400 = 0))

/-- Go `daysIn(month, year)`. -/
def daysIn (month : Nat) (year : Int) : Nat :=
  if month = 2 then (if isLeap year then 29 else 28)
  else if month = 4 ∨ month = 6 ∨ month = 9 ∨ month = 11 then 30
  else 31

/-- Days of `year` that precede the first day of `month`. -/
def daysBeforeMonth (month : Nat) (year : Int) : Nat :=
  ((List.range (month - 1)).map (fun i => daysIn (i + 1) year)).sum

/-- Leap years among the years `1 .. y` (floor division, also for `y ≤ 0`). -/
def leapsThrough (y : Int) : Int := y / 4 - y / 100 + y / 400

/-- Days from 1970-01-01 to the first day of `year`. -/
def daysBeforeYear (year : Int) : Int :=
  365 * (year - 1970) + (leapsThrough (year - 1) - leapsThrough 1969)

/-- Go `Date(year, month, day, hour, min, 0, 0, UTC)`. -/
def Date (year : Int) (month day hour min : Nat) : Time :=
  { unixNano :=
      (((daysBeforeYear year + (daysBeforeMonth month year : Int) + ((day : Int) - 1)) * 86400
        + (hour : Int) * 3600 + (min : Int) * 60) * 1000000000)
    offset := 0 }

/-- Go `isDigit`: an ASCII decimal digit. -/
def isDigit (c : Char) : Bool := decide (48 ≤ c.toNat) && decide (c.toNat ≤ 57)

/-- Value of a decimal digit. -/
def digitVal (c : Char) : Nat := c.toNat - 48

/-- Go `getnum(s, fixed)`: a leading one- or two-digit number; two digits are
required when `fixed`. -/
def getnum (s : List Char) (fixed : Bool) : Option (Nat × List Char) :=
  match s with
  | [] => none
  | c0 :: rest =>
    if isDigit c0 then
      match rest with
      | [] => if fixed then none else some (digitVal c0, rest)
      | c1 :: rest2 =>
        if isDigit c1 then some (digitVal c0 * 10 + digitVal c1, rest2)
        else if fixed then none
        else some (digitVal c0, rest)
    else none

/-- The `2006` chunk: exactly four leading digits (`atoi` of `value[0:4]`). -/
def getyear (s : List Char) : Option (Nat × List Char) :=
  match s with
  | a :: b :: c :: d :: rest =>
    if isDigit a && isDigit b && isDigit c && isDigit d then
      some (digitVal a * 1000 + digitVal b * 100 + digitVal c * 10 + digitVal d, rest)
    else none
  | _ => none

/-- Go `time.Parse(minuteTimeLayout, value)`: the chunks `2006`, `01`, `02`,
`15`, `04` in turn, the range checks of month, hour and minute, no text left
over, the day checked against the month; the result is in UTC.  `none` is a
non-nil error. -/
def Parse (value : String) : Option Time :=
  match getyear value.data with
  | none => none
  | some (year, v1) =>
    match getnum v1 true with
    | none => none
    | some (month, v2) =>
      if month = 0 ∨ 12 < month then none else
      match getnum v2 true with
      | none => none
      | some (day, v3) =>
        match getnum v3 false with
        | none => none
        | some (hour, v4) =>
          if 24 ≤ hour then none else
          match getnum v4 true with
          | none => none
          | some (min, v5) =>
            if 60 ≤ min then none
            else if v5 ≠ [] then none
            else if day < 1 ∨ daysIn month (year : Int) < day then none
            else some (Date (year : Int) month day hour min)

/-- Largest `time.Duration` (an `int64` count of nanoseconds). -/
def maxDuration : Int := 2 ^ 63 - 1

/-- Smallest `time.Duration`. -/
def minDuration : Int := -(2 ^ 63)

/-- Go `t.Sub(u)`: the duration `t - u` in nanoseconds, saturated to the
`int64` range. -/
def Sub (t u : Time) : Int :=
  let d := t.unixNano - u.unixNano
  if maxDuration < d then maxDuration
  else if d < minDuration then minDuration
  else d

/-- Go `appendInt(b, x, width)`: sign, then the decimal digits zero-padded to
`width`. -/
def appendInt (x : Int) (width : Nat) : List Char :=
  let ds := Nat.toDigits 10 x.natAbs
  (if x < 0 then ['-'] else []) ++ (List.replicate (width - ds.length) '0' ++ ds)

/-- Civil year, month and day of a day count from 1970-01-01. -/
def civil (days : Int) : Int × Nat × Nat :=
  let z := days + 719468
  let era := z / 146097
  let doe := (z - era * 146097).toNat
  let yoe := (doe - doe / 1460 + doe / 36524 - doe / 146096) / 365
  let doy := doe - (365 * yoe + yoe / 4 - yoe / 100)
  let mp := (5 * doy + 2) / 153
  let d := doy - (153 * mp + 2) / 5 + 1
  let m := if mp < 10 then mp + 3 else mp - 9
  let y := (yoe : Int) + era * 400
  (if m ≤ 2 then y + 1 else y, m, d)

/-- Go `t.Format(minuteTimeLayout)`: year (4 digits), month, day, hour, minute
(2 digits each) of the instant in the location of `t`. -/
def Format (t : Time) : String :=
  let secs := t.unixNano / 1000000000 + t.offset
  let days := secs / 86400
  let rem := (secs % 86400).toNat
  let ymd := civil days
  String.mk (appendInt ymd.1 4 ++ appendInt (ymd.2.1 : Int) 2 ++ appendInt (ymd.2.2 : Int) 2
    ++ appendInt ((rem / 3600 : Nat) : Int) 2 ++ appendInt ((rem % 3600 / 60 : Nat) : Int) 2)

end time

/-! ## Event records and the global state -/

/-- `type RequestInfo struct`. -/
structure RequestInfo where
  Url : String
  Num : Nat
deriving DecidableEq, Repr

/-- `type ErrorInfo struct`. -/
structure ErrorInfo where
  Url : String
  ErrMsg : String
  Num : Nat
deriving DecidableEq, Repr

/-- `type HttpCodeInfo struct`. -/
structure HttpCodeInfo where
  Url : String
  Code : Int
  Num : Nat
deriving DecidableEq, Repr

/-- A non-nil Go `error` value, given by the text its `Error()` method returns. -/
structure GoError where
  text : String
deriving DecidableEq, Repr

/-- The method `err.Error()`. -/
def GoError.Error (err : GoError) : String := err.text

/-- Go `strconv.Itoa`. -/
def Itoa (i : Int) : String := String.mk (time.appendInt i 0)

/-- `type ServerStateInfo struct`.  The three channels are the lists of records
they hold, oldest first; a record the worker is about to apply counts as held.
The object pool is left out: every field of a pooled record is overwritten
before the record is sent. -/
structure ServerStateInfo where
  ServerStartTime : time.Time
  TotalRequestCount : Nat
  IntervalRequestData : ItemContext
  DetailRequestPageData : ItemContext
  TotalErrorCount : Nat
  IntervalErrorData : ItemContext
  DetailErrorPageData : ItemContext
  DetailErrorData : ItemContext
  DetailHttpCodeData : ItemContext
  dataChan_Request : List RequestInfo
  dataChan_Error : List ErrorInfo
  dataChan_HttpCode : List HttpCodeInfo
deriving DecidableEq, Repr

/-- The state `GlobalState` built by `func init()`, started at `now`. -/
def init (now : time.Time) : ServerStateInfo :=
  { ServerStartTime := now
    TotalRequestCount := 0
    IntervalRequestData := NewItemContext
    DetailRequestPageData := NewItemContext
    TotalErrorCount := 0
    IntervalErrorData := NewItemContext
    DetailErrorPageData := NewItemContext
    DetailErrorData := NewItemContext
    DetailHttpCodeData := NewItemContext
    dataChan_Request := []
    dataChan_Error := []
    dataChan_HttpCode := [] }

namespace ServerStateInfo

/-- `QueryIntervalRequestData(queryKey)`. -/
def QueryIntervalRequestData (state : ServerStateInfo) (queryKey : String) : Nat :=
  state.IntervalRequestData.GetUInt64 queryKey

/-- `QueryIntervalErrorData(queryKey)`. -/
def QueryIntervalErrorData (state : ServerStateInfo) (queryKey : String) : Nat :=
  state.IntervalErrorData.GetUInt64 queryKey

/-- `addRequestData(page, num)`: send a record on `dataChan_Request`; the send
does not complete (`none`) while the channel is full. -/
def addRequestData (state : ServerStateInfo) (page : String) (num : Nat) :
    Option ServerStateInfo :=
  if state.dataChan_Request.length < chanCapacity then
    some { state with dataChan_Request := state.dataChan_Request ++ [{ Url := page, Num := num }] }
  else none

/-- `addErrorData(page, err, num)`. -/
def addErrorData (state : ServerStateInfo) (page : String) (err : GoError) (num : Nat) :
    Option ServerStateInfo :=
  if state.dataChan_Error.length < chanCapacity then
    some { state with
      dataChan_Error := state.dataChan_Error ++ [{ Url := page, ErrMsg := err.Error, Num := num }] }
  else none

/-- `addHttpCodeData(page, code, num)`. -/
def addHttpCodeData (state : ServerStateInfo) (page : String) (code : Int) (num : Nat) :
    Option ServerStateInfo :=
  if state.dataChan_HttpCode.length < chanCapacity then
    some { state with
      dataChan_HttpCode := state.dataChan_HttpCode ++ [{ Url := page, Code := code, Num := num }] }
  else none

/-- `AddRequestCount(page, num)`: the state after the call and the value it
returns. -/
def AddRequestCount (state : ServerStateInfo) (page : String) (num : Nat) :
    Option (ServerStateInfo × Nat) :=
  if strings.Index page reservedPath ≠ 0 then
    let state1 := { state with TotalRequestCount := (state.TotalRequestCount + num) % uint64Size }
    match state1.addRequestData page num with
    | some state2 => some (state2, state2.TotalRequestCount)
    | none => none
  else some (state, state.TotalRequestCount)

/-- `AddHttpCodeCount(page, code, num)`. -/
def AddHttpCodeCount (state : ServerStateInfo) (page : String) (code : Int) (num : Nat) :
    Option (ServerStateInfo × Nat) :=
  if strings.Index page reservedPath ≠ 0 then
    match state.addHttpCodeData page code num with
    | some state2 => some (state2, state2.TotalErrorCount)
    | none => none
  else some (state, state.TotalErrorCount)

/-- `AddErrorCount(page, err, num)`. -/
def AddErrorCount (state : ServerStateInfo) (page : String) (err : GoError) (num : Nat) :
    Option (ServerStateInfo × Nat) :=
  let state1 := { state with TotalErrorCount := (state.TotalErrorCount + num) % uint64Size }
  match state1.addErrorData page err num with
  | some state2 => some (state2, state2.TotalErrorCount)
  | none => none

/-- One iteration of `handleInfo` taking the case `<-state.dataChan_Request`,
the clock reading `now` at `time.Now()`.  `none`: no record is ready, or a
`Set` cannot take its lock. -/
def handleInfo_Request (ToLower : String → String) (state : ServerStateInfo) (now : time.Time) :
    Option ServerStateInfo :=
  match state.dataChan_Request with
  | [] => none
  | info :: rest =>
    let key := ToLower info.Url
    let val := state.DetailRequestPageData.GetUInt64 key
    match state.DetailRequestPageData.Set key ((val + info.Num) % uint64Size) with
    | none => none
    | some detail =>
      let key := time.Format now
      let val := state.IntervalRequestData.GetUInt64 key
      match state.IntervalRequestData.Set key ((val + info.Num) % uint64Size) with
      | none => none
      | some interval =>
        some { state with
          DetailRequestPageData := detail
          IntervalRequestData := interval
          dataChan_Request := rest }

/-- One iteration of `handleInfo` taking the case `<-state.dataChan_Error`. -/
def handleInfo_Error (ToLower : String → String) (state : ServerStateInfo) (now : time.Time) :
    Option ServerStateInfo :=
  match state.dataChan_Error with
  | [] => none
  | info :: rest =>
    let key := ToLower info.Url
    let val := state.DetailErrorPageData.GetUInt64 key
    match state.DetailErrorPageData.Set key ((val + info.Num) % uint64Size) with
    | none => none
    | some page =>
      let key := info.ErrMsg
      let val := state.DetailErrorData.GetUInt64 key
      match state.DetailErrorData.Set key ((val + info.Num) % uint64Size) with
      | none => none
      | some detail =>
        let key := time.Format now
        let val := state.IntervalErrorData.GetUInt64 key
        match state.IntervalErrorData.Set key ((val + info.Num) % uint64Size) with
        | none => none
        | some interval =>
          some { state with
            DetailErrorPageData := page
            DetailErrorData := detail
            IntervalErrorData := interval
            dataChan_Error := rest }

/-- One iteration of `handleInfo` taking the case `<-state.dataChan_HttpCode`. -/
def handleInfo_HttpCode (state : ServerStateInfo) : Option ServerStateInfo :=
  match state.dataChan_HttpCode with
  | [] => none
  | info :: rest =>
    let key := Itoa info.Code
    let val := state.DetailHttpCodeData.GetUInt64 key
    match state.DetailHttpCodeData.Set key ((val + info.Num) % uint64Size) with
    | none => none
    | some detail => some { state with DetailHttpCodeData := detail, dataChan_HttpCode := rest }

end ServerStateInfo

/-! ## The eviction sweeper -/

/-- The `for k, _ := range ...GetCurrentMap()` loop of the sweeper: `acc` is
`needRemoveKey`, `n` counts the `time.Now()` readings taken so far and
`clock n` is the reading number `n`.  A key that does not parse is appended; a
key that parses is appended when `time.Now().Sub(t) > defaultReserveMinutes`.
The bindings are visited in the order of the list. -/
def scanKeys (clock : Nat → time.Time) : List (String × Nat) → Nat → List String → List String × Nat
  | [], n, acc => (acc, n)
  | (k, _) :: rest, n, acc =>
    match time.Parse k with
    | none => scanKeys clock rest n (acc ++ [k])
    | some t =>
      if time.Sub (clock n) t > defaultReserveMinutes then scanKeys clock rest (n + 1) (acc ++ [k])
      else scanKeys clock rest (n + 1) acc

/-- The `for _, v := range needRemoveKey` loop: the store reached, and whether
the loop ran to its end (`false`: a `Remove` waits for the exclusive lock). -/
def removeKeys (ctx : ItemContext) : List String → ItemContext × Bool
  | [] => (ctx, true)
  | v :: vs =>
    match ctx.Remove v with
    | some ctx1 => removeKeys ctx1 vs
    | none => (ctx, false)

/-- How a run of the sweeper ends: it returns, or it waits forever in a
`Remove`; either way with the state it has reached. -/
inductive Outcome where
  | returned (state : ServerStateInfo)
  | blocked (state : ServerStateInfo)
deriving DecidableEq, Repr

/-- The state a run has reached. -/
def Outcome.state : Outcome → ServerStateInfo
  | .returned s => s
  | .blocked s => s

/-- The run came back to its caller. -/
def Outcome.isReturned : Outcome → Bool
  | .returned _ => true
  | .blocked _ => false

/-- `checkAndRemoveIntervalData()`: one run of the sweeper (the closing
`time.AfterFunc`, which only schedules the next run, is not part of it). -/
def ServerStateInfo.checkAndRemoveIntervalData (state : ServerStateInfo) (clock : Nat → time.Time) :
    Outcome :=
  let needRemoveKey : List String := []
  -- check IntervalRequestData
  let req := state.IntervalRequestData.RLock
  let scanned :=
    if req.Len > 10 then scanKeys clock req.GetCurrentMap 0 needRemoveKey else (needRemoveKey, 0)
  let req := req.RUnlock
  -- remove keys
  match removeKeys req scanned.1 with
  | (req, false) => .blocked { state with IntervalRequestData := req }
  | (req, true) =>
    -- check IntervalErrorData
    let needRemoveKey : List String := []
    let err := state.IntervalErrorData.RLock
    let scanned2 :=
      if err.Len > 10 then scanKeys clock err.GetCurrentMap scanned.2 needRemoveKey
      else (needRemoveKey, scanned.2)
    -- remove keys
    match removeKeys err scanned2.1 with
    | (err, false) => .blocked { state with IntervalRequestData := req, IntervalErrorData := err }
    | (err, true) => .returned { state with IntervalRequestData := req, IntervalErrorData := err }

/-! ## Interleavings of producers and worker -/

/-- One atomic step of the system: a facade call by a producer, or one
iteration of the worker on the channel that is ready. -/
inductive Event where
  | addRequest (page : String) (num : Nat)
  | addHttpCode (page : String) (code : Int) (num : Nat)
  | addError (page : String) (err : GoError) (num : Nat)
  | handleRequest (now : time.Time)
  | handleError (now : time.Time)
  | handleHttpCode
deriving DecidableEq, Repr

/-- The state after one event, `none` when the event cannot complete there. -/
def step (ToLower : String → String) (state : ServerStateInfo) : Event → Option ServerStateInfo
  | .addRequest page num => (state.AddRequestCount page num).map Prod.fst
  | .addHttpCode page code num => (state.AddHttpCodeCount page code num).map Prod.fst
  | .addError page err num => (state.AddErrorCount page err num).map Prod.fst
  | .handleRequest now => state.handleInfo_Request ToLower now
  | .handleError now => state.handleInfo_Error ToLower now
  | .handleHttpCode => state.handleInfo_HttpCode

/-- The state after a sequence of events. -/
def run (ToLower : String → String) : ServerStateInfo → List Event → Option ServerStateInfo
  | state, [] => some state
  | state, e :: es =>
    match step ToLower state e with
    | some state1 => run ToLower state1 es
    | none => none

/-- The counts of the `AddRequestCount` calls of a sequence of events. -/
def requestNums : List Event → List Nat
  | [] => []
  | .addRequest _ num :: es => num :: requestNums es
  | _ :: es => requestNums es

/-- The counts of the `AddRequestCount` calls whose page lower-cases to `key`. -/
def requestNumsAt (ToLower : String → String) (key : String) : List Event → List Nat
  | [] => []
  | .addRequest page num :: es =>
    if ToLower page = key then num :: requestNumsAt ToLower key es
    else requestNumsAt ToLower key es
  | _ :: es => requestNumsAt ToLower key es

/-- The `AddErrorCount` calls of a sequence of events, in order. -/
def errorCalls : List Event → List (String × GoError × Nat)
  | [] => []
  | .addError page err num :: es => (page, err, num) :: errorCalls es
  | _ :: es => errorCalls es

/-- No `AddRequestCount` call of the sequence has a page with the reserved
beginning. -/
def noReservedRequest : List Event → Bool
  | [] => true
  | .addRequest page _ :: es => decide (strings.Index page reservedPath ≠ 0) && noReservedRequest es
  | _ :: es => noReservedRequest es

/-- An ASCII lower-casing, the value of `strings.ToLower` on ASCII text. -/
def asciiLower (s : String) : String :=
  String.mk (s.data.map (fun c => if 65 ≤ c.toNat ∧ c.toNat ≤ 90 then Char.ofNat (c.toNat + 32) else c))

/-- What an event adds to the request count of `key`: the count of an
`AddRequestCount` call that passes the test of the reserved beginning and
whose page lower-cases to `key`. -/
def requestAt (ToLower : String → String) (key : String) : Event → Nat
  | .addRequest page num =>
    if strings.Index page reservedPath ≠ 0 ∧ ToLower page = key then num else 0
  | _ => 0

/-- What an event adds to `TotalRequestCount`. -/
def requestTotalOf : Event → Nat
  | .addRequest page num => if strings.Index page reservedPath ≠ 0 then num else 0
  | _ => 0

/-- The counts queued on `dataChan_Request` for `key`. -/
def pendingRequests (ToLower : String → String) (key : String) (q : List RequestInfo) : Nat :=
  (q.map (fun r => if ToLower r.Url = key then r.Num else 0)).sum


/-- A clock reading used by the worked examples: 2024-05-01 12:30:00 UTC. -/
def noon : time.Time := { unixNano := 1714566600000000000, offset := 0 }

/-- One hundred calls `AddRequestCount("/a", 1)`, then the worker applying the
hundred records. -/
def hundredCalls : List Event :=
  List.replicate 100 (Event.addRequest "/a" 1) ++ List.replicate 100 (Event.handleRequest noon)

/-- The state the hundred calls lead to from the initial state. -/
def hundredFinal : ServerStateInfo :=
  { init noon with
    TotalRequestCount := 100
    IntervalRequestData := { contextMap := [("202405011230", 100)], readers := 0 }
    DetailRequestPageData := { contextMap := [("/a", 100)], readers := 0 } }


/-- What an event adds to the error count of the page key `key`. -/
def errorPageAt (ToLower : String → String) (key : String) : Event → Nat
  | .addError page _ num => if ToLower page = key then num else 0
  | _ => 0

/-- What an event adds to the error count of the message `key`. -/
def errorTextAt (key : String) : Event → Nat
  | .addError _ err num => if err.Error = key then num else 0
  | _ => 0

/-- The counts queued on `dataChan_Error` for the page key `key`. -/
def pendingErrorPages (ToLower : String → String) (key : String) (q : List ErrorInfo) : Nat :=
  (q.map (fun r => if ToLower r.Url = key then r.Num else 0)).sum

/-- The counts queued on `dataChan_Error` for the message `key`. -/
def pendingErrorTexts (key : String) (q : List ErrorInfo) : Nat :=
  (q.map (fun r => if r.ErrMsg = key then r.Num else 0)).sum

/-- The error value of the worked examples. -/
def boom : GoError := { text := "boom" }

/-- `AddErrorCount("/x", err, 3)`, `AddErrorCount("/x", err, 2)`, then the worker
applying the two records. -/
def twoErrors : List Event :=
  [.addError "/x" boom 3, .addError "/x" boom 2, .handleError noon, .handleError noon]

/-- The state the two error calls lead to from the initial state. -/
def twoErrorsFinal : ServerStateInfo :=
  { init noon with
    TotalErrorCount := 5
    IntervalErrorData := { contextMap := [("202405011230", 5)], readers := 0 }
    DetailErrorPageData := { contextMap := [("/x", 5)], readers := 0 }
    DetailErrorData := { contextMap := [("boom", 5)], readers := 0 } }


/-- Eleven interval buckets, one per minute from 12:20 to 12:30 on 2024-05-01. -/
def recentBuckets : List (String × Nat) :=
  [("202405011220", 1), ("202405011221", 2), ("202405011222", 3), ("202405011223", 4),
   ("202405011224", 5), ("202405011225", 6), ("202405011226", 7), ("202405011227", 8),
   ("202405011228", 9), ("202405011229", 10), ("202405011230", 11)]

/-- A state whose interval-request store holds the eleven recent buckets. -/
def busyRequests : ServerStateInfo :=
  { init noon with IntervalRequestData := { contextMap := recentBuckets, readers := 0 } }

/-- A state whose interval-error store holds the eleven recent buckets. -/
def busyErrors : ServerStateInfo :=
  { init noon with IntervalErrorData := { contextMap := recentBuckets, readers := 0 } }

/-- Eleven bindings: a key that is no minute timestamp, and ten recent buckets. -/
def bucketsWithBadKey : List (String × Nat) :=
  ("not-a-minute", 7) :: recentBuckets.drop 1

/-- A state whose interval-error store holds the key that does not parse. -/
def badErrorKey : ServerStateInfo :=
  { init noon with IntervalErrorData := { contextMap := bucketsWithBadKey, readers := 0 } }

/-- A state whose interval-request store holds the key that does not parse. -/
def badRequestKey : ServerStateInfo :=
  { init noon with IntervalRequestData := { contextMap := bucketsWithBadKey, readers := 0 } }

/-- A state with two old or malformed bindings in each interval store. -/
def fewStale : ServerStateInfo :=
  { init noon with
    IntervalRequestData := { contextMap := [("199901010000", 4), ("junk", 1)], readers := 0 }
    IntervalErrorData := { contextMap := [("199901010000", 2), ("junk", 3)], readers := 0 } }

/-- Two calls that bring `TotalRequestCount` and `TotalErrorCount` from 0 to the
largest `uint64`. -/
def fullCounters : List Event :=
  [.addRequest "/a" (2 ^ 64 - 1), .addError "/a" boom (2 ^ 64 - 1)]


/-- The state reached from the initial one by `AddErrorCount("/dotweb/state", err, 1)`
and the worker applying the record. -/
def reservedErrorFinal : ServerStateInfo :=
  { init noon with
    TotalErrorCount := 1
    IntervalErrorData := { contextMap := [("202405011230", 1)], readers := 0 }
    DetailErrorPageData := { contextMap := [("/dotweb/state", 1)], readers := 0 }
    DetailErrorData := { contextMap := [("boom", 1)], readers := 0 } }


/-- The state reached from the initial one by `AddRequestCount("/a", 4)` and the
worker applying the record at the clock reading `noon`. -/
def oneRequestFinal : ServerStateInfo :=
  { init noon with
    TotalRequestCount := 4
    IntervalRequestData := { contextMap := [("202405011230", 4)], readers := 0 }
    DetailRequestPageData := { contextMap := [("/a", 4)], readers := 0 } }

/-- The state reached from the initial one by `AddErrorCount("/a", err, 4)` and
the worker applying the record at the clock reading `noon`. -/
def oneErrorFinal : ServerStateInfo :=
  { init noon with
    TotalErrorCount := 4
    IntervalErrorData := { contextMap := [("202405011230", 4)], readers := 0 }
    DetailErrorPageData := { contextMap := [("/a", 4)], readers := 0 }
    DetailErrorData := { contextMap := [("boom", 4)], readers := 0 } }

/-- The state right after `AddErrorCount("/a", err, 4)` on the initial state. -/
def oneErrorQueued : ServerStateInfo :=
  { init noon with
    TotalErrorCount := 4
    dataChan_Error := [{ Url := "/a", ErrMsg := "boom", Num := 4 }] }

/-- The state right after `AddErrorCount("/a", err, 2^64 - 1)` on the initial
state: `TotalErrorCount` holds the largest `uint64`, `TotalRequestCount` is 0. -/
def errorCounterFull : ServerStateInfo :=
  { init noon with
    TotalErrorCount := 2 ^ 64 - 1
    dataChan_Error := [{ Url := "/a", ErrMsg := "boom", Num := 2 ^ 64 - 1 }] }

/-- The state `errorCounterFull` after `AddRequestCount("/a", 1)`. -/
def errorFullRequested : ServerStateInfo :=
  { errorCounterFull with
    TotalRequestCount := 1
    dataChan_Request := [{ Url := "/a", Num := 1 }] }

/-- The state `errorCounterFull` after `AddHttpCodeCount("/a", 404, 1)`. -/
def errorFullCoded : ServerStateInfo :=
  { errorCounterFull with dataChan_HttpCode := [{ Url := "/a", Code := 404, Num := 1 }] }

/-! ## Lemmas on `strings.Index` and on the store -/

theorem uint64Size_pos : 0 < uint64Size := by decide

theorem indexFrom_bound (substr : List Char) (l : List Char) (off : Nat) :
    strings.indexFrom substr l off = -1 ∨ (off : Int) ≤ strings.indexFrom substr l off := by
  induction l generalizing off with
  | nil =>
    unfold strings.indexFrom
    split <;> simp
  | cons c cs ih =>
    unfold strings.indexFrom
    split
    · right; exact le_refl _
    · rcases ih (off + c.utf8Size) with h | h
      · left; exact h
      · right
        have : (off : Int) ≤ ((off + c.utf8Size : Nat) : Int) := by
          exact_mod_cast Nat.le_add_right _ _
        exact le_trans this h

theorem indexFrom_eq_off (substr : List Char) (l : List Char) (off : Nat) :
    strings.indexFrom substr l off = (off : Int) ↔ substr.isPrefixOf l = true := by
  cases l with
  | nil =>
    unfold strings.indexFrom
    split
    · simp_all
    · rename_i h
      constructor
      · intro h2; omega
      · intro h2; exact absurd h2 h
  | cons c cs =>
    unfold strings.indexFrom
    split
    · simp_all
    · rename_i h
      constructor
      · intro h2
        have hp := Char.utf8Size_pos c
        rcases indexFrom_bound substr cs (off + c.utf8Size) with h3 | h3
        · omega
        · have : ((off + c.utf8Size : Nat) : Int) = (off : Int) + (c.utf8Size : Int) := by
            push_cast; rfl
          omega
      · intro h2; exact absurd h2 h

/-- The test `strings.Index(s, substr) != 0` fails exactly when `s` begins with
`substr`. -/
theorem Index_eq_zero_iff (s substr : String) :
    strings.Index s substr = 0 ↔ substr.data.isPrefixOf s.data = true := by
  unfold strings.Index
  exact indexFrom_eq_off substr.data s.data 0

theorem Index_reserved (rest : String) :
    strings.Index (reservedPath ++ rest) reservedPath = 0 := by
  rw [Index_eq_zero_iff]
  simp [String.data_append]

theorem lookupKey_upsert (key k2 : String) (v : Nat) (l : List (String × Nat)) :
    lookupKey k2 (upsert key v l) = if key = k2 then some v else lookupKey k2 l := by
  induction l with
  | nil => simp [upsert, lookupKey]
  | cons p rest ih =>
    obtain ⟨k, w⟩ := p
    by_cases h : k = key
    · subst h
      by_cases h2 : k = k2
      · simp [upsert, lookupKey, h2]
      · simp [upsert, lookupKey, h2]
    · by_cases h2 : k = k2
      · subst h2
        simp [upsert, lookupKey, h, Ne.symm h]
      · simp [upsert, lookupKey, h, h2, ih]

theorem GetUInt64_Set (ctx ctx1 : ItemContext) (key k2 : String) (v : Nat)
    (h : ctx.Set key v = some ctx1) :
    ctx1.GetUInt64 k2 = if key = k2 then v else ctx.GetUInt64 k2 := by
  unfold ItemContext.Set at h
  split at h
  · cases h
    simp only [ItemContext.GetUInt64, lookupKey_upsert]
    by_cases hk : key = k2
    · simp [hk]
    · simp [hk]
  · cases h

/-! ## An invariant of every interleaving -/

/-- A quantity `G` of the state and the amount `P` still queued for it: when
every event `e` moves `G + P` by `A e` modulo `2 ^ 64` and keeps `G` a `uint64`,
a whole sequence moves `G + P` by the sum of the `A e`. -/
theorem run_invariant (ToLower : String → String) (G P : ServerStateInfo → Nat) (A : Event → Nat)
    (hstep : ∀ s e s1, step ToLower s e = some s1 →
      (G s1 + P s1) % uint64Size = (G s + P s + A e) % uint64Size)
    (hbound : ∀ s e s1, step ToLower s e = some s1 → G s < uint64Size → G s1 < uint64Size) :
    ∀ (tr : List Event) (s s2 : ServerStateInfo), run ToLower s tr = some s2 → G s < uint64Size →
      G s2 < uint64Size ∧ (G s2 + P s2) % uint64Size = (G s + P s + (tr.map A).sum) % uint64Size := by
  intro tr
  induction tr with
  | nil =>
    intro s s2 h hb
    simp only [run, Option.some.injEq] at h
    subst h
    simp [hb]
  | cons e es ih =>
    intro s s2 h hb
    simp only [run] at h
    cases hs : step ToLower s e with
    | none => rw [hs] at h; cases h
    | some s1 =>
      rw [hs] at h
      have hb1 := hbound s e s1 hs hb
      obtain ⟨hb2, heq⟩ := ih s1 s2 h hb1
      refine ⟨hb2, ?_⟩
      rw [heq, List.map_cons, List.sum_cons]
      have h1 := hstep s e s1 hs
      calc (G s1 + P s1 + (es.map A).sum) % uint64Size
          = ((G s1 + P s1) % uint64Size + (es.map A).sum) % uint64Size := by
            rw [Nat.mod_add_mod]
        _ = ((G s + P s + A e) % uint64Size + (es.map A).sum) % uint64Size := by rw [h1]
        _ = (G s + P s + A e + (es.map A).sum) % uint64Size := by rw [Nat.mod_add_mod]
        _ = (G s + P s + (A e + (es.map A).sum)) % uint64Size := by rw [Nat.add_assoc]

/-! ## What each event does to the state -/

theorem step_addRequest (ToLower : String → String) (s s1 : ServerStateInfo) (page : String)
    (num : Nat) (h : step ToLower s (.addRequest page num) = some s1) :
    (strings.Index page reservedPath = 0 ∧ s1 = s) ∨
    (strings.Index page reservedPath ≠ 0 ∧ s.dataChan_Request.length < chanCapacity ∧
      s1 = { s with
        TotalRequestCount := (s.TotalRequestCount + num) % uint64Size
        dataChan_Request := s.dataChan_Request ++ [{ Url := page, Num := num }] }) := by
  by_cases hr : strings.Index page reservedPath = 0
  · left
    simp [step, ServerStateInfo.AddRequestCount, hr] at h
    exact ⟨hr, h.symm⟩
  · right
    by_cases hc : s.dataChan_Request.length < chanCapacity
    · simp [step, ServerStateInfo.AddRequestCount, ServerStateInfo.addRequestData, hr, hc] at h
      exact ⟨hr, hc, h.symm⟩
    · simp [step, ServerStateInfo.AddRequestCount, ServerStateInfo.addRequestData, hr, hc] at h

theorem step_addHttpCode (ToLower : String → String) (s s1 : ServerStateInfo) (page : String)
    (code : Int) (num : Nat) (h : step ToLower s (.addHttpCode page code num) = some s1) :
    (strings.Index page reservedPath = 0 ∧ s1 = s) ∨
    (strings.Index page reservedPath ≠ 0 ∧ s.dataChan_HttpCode.length < chanCapacity ∧
      s1 = { s with
        dataChan_HttpCode := s.dataChan_HttpCode ++ [{ Url := page, Code := code, Num := num }] }) := by
  by_cases hr : strings.Index page reservedPath = 0
  · left
    simp [step, ServerStateInfo.AddHttpCodeCount, hr] at h
    exact ⟨hr, h.symm⟩
  · right
    by_cases hc : s.dataChan_HttpCode.length < chanCapacity
    · simp [step, ServerStateInfo.AddHttpCodeCount, ServerStateInfo.addHttpCodeData, hr, hc] at h
      exact ⟨hr, hc, h.symm⟩
    · simp [step, ServerStateInfo.AddHttpCodeCount, ServerStateInfo.addHttpCodeData, hr, hc] at h

theorem step_addError (ToLower : String → String) (s s1 : ServerStateInfo) (page : String)
    (err : GoError) (num : Nat) (h : step ToLower s (.addError page err num) = some s1) :
    s.dataChan_Error.length < chanCapacity ∧
      s1 = { s with
        TotalErrorCount := (s.TotalErrorCount + num) % uint64Size
        dataChan_Error := s.dataChan_Error ++ [{ Url := page, ErrMsg := err.Error, Num := num }] } := by
  by_cases hc : s.dataChan_Error.length < chanCapacity
  · simp [step, ServerStateInfo.AddErrorCount, ServerStateInfo.addErrorData, hc] at h
    exact ⟨hc, h.symm⟩
  · simp [step, ServerStateInfo.AddErrorCount, ServerStateInfo.addErrorData, hc] at h

theorem step_handleRequest (ToLower : String → String) (s s1 : ServerStateInfo) (now : time.Time)
    (h : step ToLower s (.handleRequest now) = some s1) :
    ∃ info rest detail interval,
      s.dataChan_Request = info :: rest ∧
      s.DetailRequestPageData.Set (ToLower info.Url)
        ((s.DetailRequestPageData.GetUInt64 (ToLower info.Url) + info.Num) % uint64Size)
        = some detail ∧
      s.IntervalRequestData.Set (time.Format now)
        ((s.IntervalRequestData.GetUInt64 (time.Format now) + info.Num) % uint64Size)
        = some interval ∧
      s1 = { s with
        DetailRequestPageData := detail
        IntervalRequestData := interval
        dataChan_Request := rest } := by
  simp only [step, ServerStateInfo.handleInfo_Request] at h
  split at h
  · cases h
  · rename_i info rest hq
    split at h
    · cases h
    · rename_i detail hd
      split at h
      · cases h
      · rename_i interval hi
        simp only [Option.some.injEq] at h
        exact ⟨info, rest, detail, interval, hq, hd, hi, h.symm⟩

theorem step_handleError (ToLower : String → String) (s s1 : ServerStateInfo) (now : time.Time)
    (h : step ToLower s (.handleError now) = some s1) :
    ∃ info rest page detail interval,
      s.dataChan_Error = info :: rest ∧
      s.DetailErrorPageData.Set (ToLower info.Url)
        ((s.DetailErrorPageData.GetUInt64 (ToLower info.Url) + info.Num) % uint64Size)
        = some page ∧
      s.DetailErrorData.Set info.ErrMsg
        ((s.DetailErrorData.GetUInt64 info.ErrMsg + info.Num) % uint64Size) = some detail ∧
      s.IntervalErrorData.Set (time.Format now)
        ((s.IntervalErrorData.GetUInt64 (time.Format now) + info.Num) % uint64Size)
        = some interval ∧
      s1 = { s with
        DetailErrorPageData := page
        DetailErrorData := detail
        IntervalErrorData := interval
        dataChan_Error := rest } := by
  simp only [step, ServerStateInfo.handleInfo_Error] at h
  split at h
  · cases h
  · rename_i info rest hq
    split at h
    · cases h
    · rename_i page hp
      split at h
      · cases h
      · rename_i detail hd
        split at h
        · cases h
        · rename_i interval hi
          simp only [Option.some.injEq] at h
          exact ⟨info, rest, page, detail, interval, hq, hp, hd, hi, h.symm⟩

theorem step_handleHttpCode (ToLower : String → String) (s s1 : ServerStateInfo)
    (h : step ToLower s .handleHttpCode = some s1) :
    ∃ info rest detail,
      s.dataChan_HttpCode = info :: rest ∧
      s.DetailHttpCodeData.Set (Itoa info.Code)
        ((s.DetailHttpCodeData.GetUInt64 (Itoa info.Code) + info.Num) % uint64Size)
        = some detail ∧
      s1 = { s with DetailHttpCodeData := detail, dataChan_HttpCode := rest } := by
  simp only [step, ServerStateInfo.handleInfo_HttpCode] at h
  split at h
  · cases h
  · rename_i info rest hq
    split at h
    · cases h
    · rename_i detail hd
      simp only [Option.some.injEq] at h
      exact ⟨info, rest, detail, hq, hd, h.symm⟩

theorem step_request_detail (ToLower : String → String) (key : String)
    (s : ServerStateInfo) (e : Event) (s1 : ServerStateInfo) (h : step ToLower s e = some s1) :
    (s1.DetailRequestPageData.GetUInt64 key + pendingRequests ToLower key s1.dataChan_Request)
        % uint64Size
      = (s.DetailRequestPageData.GetUInt64 key + pendingRequests ToLower key s.dataChan_Request
          + requestAt ToLower key e) % uint64Size := by
  cases e with
  | addRequest page num =>
    rcases step_addRequest ToLower s s1 page num h with ⟨hr, rfl⟩ | ⟨hr, _, rfl⟩
    · simp [requestAt, hr]
    · by_cases hk : ToLower page = key
      · simp [pendingRequests, requestAt, hr, hk, Nat.add_assoc]
      · simp [pendingRequests, requestAt, hr, hk]
  | addHttpCode page code num =>
    rcases step_addHttpCode ToLower s s1 page code num h with ⟨_, rfl⟩ | ⟨_, _, rfl⟩ <;>
      simp [requestAt]
  | addError page err num =>
    obtain ⟨_, rfl⟩ := step_addError ToLower s s1 page err num h
    simp [requestAt]
  | handleRequest now =>
    obtain ⟨info, rest, detail, interval, hq, hd, _, rfl⟩ := step_handleRequest ToLower s s1 now h
    simp only [hq, pendingRequests, List.map_cons, List.sum_cons, requestAt, Nat.add_zero]
    rw [GetUInt64_Set _ _ _ key _ hd]
    by_cases hk : ToLower info.Url = key
    · subst hk
      simp only [if_true]
      rw [Nat.mod_add_mod]
      congr 1
      omega
    · simp [hk]
  | handleError now =>
    obtain ⟨_, _, _, _, _, _, _, _, _, rfl⟩ := step_handleError ToLower s s1 now h
    simp [requestAt]
  | handleHttpCode =>
    obtain ⟨_, _, _, _, _, rfl⟩ := step_handleHttpCode ToLower s s1 h
    simp [requestAt]

theorem step_request_detail_bound (ToLower : String → String) (key : String)
    (s : ServerStateInfo) (e : Event) (s1 : ServerStateInfo) (h : step ToLower s e = some s1)
    (hb : s.DetailRequestPageData.GetUInt64 key < uint64Size) :
    s1.DetailRequestPageData.GetUInt64 key < uint64Size := by
  cases e with
  | addRequest page num =>
    rcases step_addRequest ToLower s s1 page num h with ⟨_, rfl⟩ | ⟨_, _, rfl⟩ <;> exact hb
  | addHttpCode page code num =>
    rcases step_addHttpCode ToLower s s1 page code num h with ⟨_, rfl⟩ | ⟨_, _, rfl⟩ <;> exact hb
  | addError page err num =>
    obtain ⟨_, rfl⟩ := step_addError ToLower s s1 page err num h
    exact hb
  | handleRequest now =>
    obtain ⟨info, rest, detail, interval, hq, hd, _, rfl⟩ := step_handleRequest ToLower s s1 now h
    show detail.GetUInt64 key < uint64Size
    rw [GetUInt64_Set _ _ _ key _ hd]
    split
    · exact Nat.mod_lt _ uint64Size_pos
    · exact hb
  | handleError now =>
    obtain ⟨_, _, _, _, _, _, _, _, _, rfl⟩ := step_handleError ToLower s s1 now h
    exact hb
  | handleHttpCode =>
    obtain ⟨_, _, _, _, _, rfl⟩ := step_handleHttpCode ToLower s s1 h
    exact hb

theorem step_request_total (ToLower : String → String)
    (s : ServerStateInfo) (e : Event) (s1 : ServerStateInfo) (h : step ToLower s e = some s1) :
    (s1.TotalRequestCount + 0) % uint64Size
      = (s.TotalRequestCount + 0 + requestTotalOf e) % uint64Size := by
  cases e with
  | addRequest page num =>
    rcases step_addRequest ToLower s s1 page num h with ⟨hr, rfl⟩ | ⟨hr, _, rfl⟩
    · simp [requestTotalOf, hr]
    · simp [requestTotalOf, hr]
  | addHttpCode page code num =>
    rcases step_addHttpCode ToLower s s1 page code num h with ⟨_, rfl⟩ | ⟨_, _, rfl⟩ <;>
      simp [requestTotalOf]
  | addError page err num =>
    obtain ⟨_, rfl⟩ := step_addError ToLower s s1 page err num h
    simp [requestTotalOf]
  | handleRequest now =>
    obtain ⟨info, rest, detail, interval, hq, hd, _, rfl⟩ := step_handleRequest ToLower s s1 now h
    simp [requestTotalOf]
  | handleError now =>
    obtain ⟨_, _, _, _, _, _, _, _, _, rfl⟩ := step_handleError ToLower s s1 now h
    simp [requestTotalOf]
  | handleHttpCode =>
    obtain ⟨_, _, _, _, _, rfl⟩ := step_handleHttpCode ToLower s s1 h
    simp [requestTotalOf]

theorem step_request_total_bound (ToLower : String → String)
    (s : ServerStateInfo) (e : Event) (s1 : ServerStateInfo) (h : step ToLower s e = some s1)
    (hb : s.TotalRequestCount < uint64Size) : s1.TotalRequestCount < uint64Size := by
  cases e with
  | addRequest page num =>
    rcases step_addRequest ToLower s s1 page num h with ⟨hr, rfl⟩ | ⟨hr, _, rfl⟩
    · exact hb
    · exact Nat.mod_lt _ uint64Size_pos
  | addHttpCode page code num =>
    rcases step_addHttpCode ToLower s s1 page code num h with ⟨_, rfl⟩ | ⟨_, _, rfl⟩ <;> exact hb
  | addError page err num =>
    obtain ⟨_, rfl⟩ := step_addError ToLower s s1 page err num h
    exact hb
  | handleRequest now =>
    obtain ⟨info, rest, detail, interval, hq, hd, _, rfl⟩ := step_handleRequest ToLower s s1 now h
    exact hb
  | handleError now =>
    obtain ⟨_, _, _, _, _, _, _, _, _, rfl⟩ := step_handleError ToLower s s1 now h
    exact hb
  | handleHttpCode =>
    obtain ⟨_, _, _, _, _, rfl⟩ := step_handleHttpCode ToLower s s1 h
    exact hb

theorem sum_requestTotalOf (tr : List Event) (h : noReservedRequest tr = true) :
    (tr.map requestTotalOf).sum = (requestNums tr).sum := by
  induction tr with
  | nil => rfl
  | cons e es ih =>
    cases e with
    | addRequest page num =>
      simp only [noReservedRequest, Bool.and_eq_true, decide_eq_true_eq] at h
      simp [requestTotalOf, requestNums, h.1, ih h.2]
    | addHttpCode page code num => simpa [requestTotalOf, requestNums, noReservedRequest] using ih h
    | addError page err num => simpa [requestTotalOf, requestNums, noReservedRequest] using ih h
    | handleRequest now => simpa [requestTotalOf, requestNums, noReservedRequest] using ih h
    | handleError now => simpa [requestTotalOf, requestNums, noReservedRequest] using ih h
    | handleHttpCode => simpa [requestTotalOf, requestNums, noReservedRequest] using ih h

theorem sum_requestAt (ToLower : String → String) (key : String) (tr : List Event)
    (h : noReservedRequest tr = true) :
    (tr.map (requestAt ToLower key)).sum = (requestNumsAt ToLower key tr).sum := by
  induction tr with
  | nil => rfl
  | cons e es ih =>
    cases e with
    | addRequest page num =>
      simp only [noReservedRequest, Bool.and_eq_true, decide_eq_true_eq] at h
      by_cases hk : ToLower page = key
      · simp [requestAt, requestNumsAt, h.1, hk, ih h.2]
      · simp [requestAt, requestNumsAt, h.1, hk, ih h.2]
    | addHttpCode page code num => simpa [requestAt, requestNumsAt, noReservedRequest] using ih h
    | addError page err num => simpa [requestAt, requestNumsAt, noReservedRequest] using ih h
    | handleRequest now => simpa [requestAt, requestNumsAt, noReservedRequest] using ih h
    | handleError now => simpa [requestAt, requestNumsAt, noReservedRequest] using ih h
    | handleHttpCode => simpa [requestAt, requestNumsAt, noReservedRequest] using ih h

theorem step_error_page (ToLower : String → String) (key : String)
    (s : ServerStateInfo) (e : Event) (s1 : ServerStateInfo) (h : step ToLower s e = some s1) :
    (s1.DetailErrorPageData.GetUInt64 key + pendingErrorPages ToLower key s1.dataChan_Error)
        % uint64Size
      = (s.DetailErrorPageData.GetUInt64 key + pendingErrorPages ToLower key s.dataChan_Error
          + errorPageAt ToLower key e) % uint64Size := by
  cases e with
  | addRequest page num =>
    rcases step_addRequest ToLower s s1 page num h with ⟨_, rfl⟩ | ⟨_, _, rfl⟩ <;>
      simp [errorPageAt]
  | addHttpCode page code num =>
    rcases step_addHttpCode ToLower s s1 page code num h with ⟨_, rfl⟩ | ⟨_, _, rfl⟩ <;>
      simp [errorPageAt]
  | addError page err num =>
    obtain ⟨_, rfl⟩ := step_addError ToLower s s1 page err num h
    by_cases hk : ToLower page = key
    · simp [pendingErrorPages, errorPageAt, hk, Nat.add_assoc]
    · simp [pendingErrorPages, errorPageAt, hk]
  | handleRequest now =>
    obtain ⟨_, _, _, _, _, _, _, rfl⟩ := step_handleRequest ToLower s s1 now h
    simp [errorPageAt]
  | handleError now =>
    obtain ⟨info, rest, pg, detail, interval, hq, hp, _, _, rfl⟩ :=
      step_handleError ToLower s s1 now h
    simp only [hq, pendingErrorPages, List.map_cons, List.sum_cons, errorPageAt, Nat.add_zero]
    rw [GetUInt64_Set _ _ _ key _ hp]
    by_cases hk : ToLower info.Url = key
    · subst hk
      simp only [if_true]
      rw [Nat.mod_add_mod]
      congr 1
      omega
    · simp [hk]
  | handleHttpCode =>
    obtain ⟨_, _, _, _, _, rfl⟩ := step_handleHttpCode ToLower s s1 h
    simp [errorPageAt]

theorem step_error_page_bound (ToLower : String → String) (key : String)
    (s : ServerStateInfo) (e : Event) (s1 : ServerStateInfo) (h : step ToLower s e = some s1)
    (hb : s.DetailErrorPageData.GetUInt64 key < uint64Size) :
    s1.DetailErrorPageData.GetUInt64 key < uint64Size := by
  cases e with
  | addRequest page num =>
    rcases step_addRequest ToLower s s1 page num h with ⟨_, rfl⟩ | ⟨_, _, rfl⟩ <;> exact hb
  | addHttpCode page code num =>
    rcases step_addHttpCode ToLower s s1 page code num h with ⟨_, rfl⟩ | ⟨_, _, rfl⟩ <;> exact hb
  | addError page err num =>
    obtain ⟨_, rfl⟩ := step_addError ToLower s s1 page err num h
    exact hb
  | handleRequest now =>
    obtain ⟨_, _, _, _, _, _, _, rfl⟩ := step_handleRequest ToLower s s1 now h
    exact hb
  | handleError now =>
    obtain ⟨info, rest, pg, detail, interval, hq, hp, _, _, rfl⟩ :=
      step_handleError ToLower s s1 now h
    show pg.GetUInt64 key < uint64Size
    rw [GetUInt64_Set _ _ _ key _ hp]
    split
    · exact Nat.mod_lt _ uint64Size_pos
    · exact hb
  | handleHttpCode =>
    obtain ⟨_, _, _, _, _, rfl⟩ := step_handleHttpCode ToLower s s1 h
    exact hb

theorem step_error_text (ToLower : String → String) (key : String)
    (s : ServerStateInfo) (e : Event) (s1 : ServerStateInfo) (h : step ToLower s e = some s1) :
    (s1.DetailErrorData.GetUInt64 key + pendingErrorTexts key s1.dataChan_Error) % uint64Size
      = (s.DetailErrorData.GetUInt64 key + pendingErrorTexts key s.dataChan_Error
          + errorTextAt key e) % uint64Size := by
  cases e with
  | addRequest page num =>
    rcases step_addRequest ToLower s s1 page num h with ⟨_, rfl⟩ | ⟨_, _, rfl⟩ <;>
      simp [errorTextAt]
  | addHttpCode page code num =>
    rcases step_addHttpCode ToLower s s1 page code num h with ⟨_, rfl⟩ | ⟨_, _, rfl⟩ <;>
      simp [errorTextAt]
  | addError page err num =>
    obtain ⟨_, rfl⟩ := step_addError ToLower s s1 page err num h
    by_cases hk : err.Error = key
    · simp [pendingErrorTexts, errorTextAt, hk, Nat.add_assoc]
    · simp [pendingErrorTexts, errorTextAt, hk]
  | handleRequest now =>
    obtain ⟨_, _, _, _, _, _, _, rfl⟩ := step_handleRequest ToLower s s1 now h
    simp [errorTextAt]
  | handleError now =>
    obtain ⟨info, rest, pg, detail, interval, hq, _, hd, _, rfl⟩ :=
      step_handleError ToLower s s1 now h
    simp only [hq, pendingErrorTexts, List.map_cons, List.sum_cons, errorTextAt, Nat.add_zero]
    rw [GetUInt64_Set _ _ _ key _ hd]
    by_cases hk : info.ErrMsg = key
    · subst hk
      simp only [if_true]
      rw [Nat.mod_add_mod]
      congr 1
      omega
    · simp [hk]
  | handleHttpCode =>
    obtain ⟨_, _, _, _, _, rfl⟩ := step_handleHttpCode ToLower s s1 h
    simp [errorTextAt]

theorem step_error_text_bound (ToLower : String → String) (key : String)
    (s : ServerStateInfo) (e : Event) (s1 : ServerStateInfo) (h : step ToLower s e = some s1)
    (hb : s.DetailErrorData.GetUInt64 key < uint64Size) :
    s1.DetailErrorData.GetUInt64 key < uint64Size := by
  cases e with
  | addRequest page num =>
    rcases step_addRequest ToLower s s1 page num h with ⟨_, rfl⟩ | ⟨_, _, rfl⟩ <;> exact hb
  | addHttpCode page code num =>
    rcases step_addHttpCode ToLower s s1 page code num h with ⟨_, rfl⟩ | ⟨_, _, rfl⟩ <;> exact hb
  | addError page err num =>
    obtain ⟨_, rfl⟩ := step_addError ToLower s s1 page err num h
    exact hb
  | handleRequest now =>
    obtain ⟨_, _, _, _, _, _, _, rfl⟩ := step_handleRequest ToLower s s1 now h
    exact hb
  | handleError now =>
    obtain ⟨info, rest, pg, detail, interval, hq, _, hd, _, rfl⟩ :=
      step_handleError ToLower s s1 now h
    show detail.GetUInt64 key < uint64Size
    rw [GetUInt64_Set _ _ _ key _ hd]
    split
    · exact Nat.mod_lt _ uint64Size_pos
    · exact hb
  | handleHttpCode =>
    obtain ⟨_, _, _, _, _, rfl⟩ := step_handleHttpCode ToLower s s1 h
    exact hb

theorem sum_errorPageAt (ToLower : String → String) (key : String) (tr : List Event) :
    (tr.map (errorPageAt ToLower key)).sum
      = ((errorCalls tr).map (fun c => if ToLower c.1 = key then c.2.2 else 0)).sum := by
  induction tr with
  | nil => rfl
  | cons e es ih =>
    cases e <;> simp [errorPageAt, errorCalls, ih]

theorem sum_errorTextAt (key : String) (tr : List Event) :
    (tr.map (errorTextAt key)).sum
      = ((errorCalls tr).map (fun c => if c.2.1.Error = key then c.2.2 else 0)).sum := by
  induction tr with
  | nil => rfl
  | cons e es ih =>
    cases e <;> simp [errorTextAt, errorCalls, ih]

theorem run_pair (ToLower : String → String) (s final : ServerStateInfo) (e1 e2 : Event)
    (h : run ToLower s [e1, e2] = some final) :
    ∃ s1, step ToLower s e1 = some s1 ∧ step ToLower s1 e2 = some final := by
  simp only [run] at h
  cases h1 : step ToLower s e1 with
  | none => simp [h1] at h
  | some s1 =>
    simp only [h1] at h
    cases h2 : step ToLower s1 e2 with
    | none => simp [h2] at h
    | some s2 =>
      simp only [h2, Option.some.injEq] at h
      subst h
      exact ⟨s1, rfl, h2⟩

/-! ## The sweeper on one store -/

theorem scanKeys_keeps (clock : Nat → time.Time) (l : List (String × Nat)) (n : Nat)
    (acc : List String) (k : String) (h : k ∈ acc) : k ∈ (scanKeys clock l n acc).1 := by
  induction l generalizing n acc with
  | nil => simpa [scanKeys] using h
  | cons p rest ih =>
    obtain ⟨k2, v2⟩ := p
    simp only [scanKeys]
    split
    · exact ih _ _ (List.mem_append_left _ h)
    · split
      · exact ih _ _ (List.mem_append_left _ h)
      · exact ih _ _ h

/-- The scan marks every key that does not parse, and every key that parses to
an instant more than `defaultReserveMinutes` nanoseconds before each clock
reading. -/
theorem scanKeys_marks (clock : Nat → time.Time) (l : List (String × Nat)) (n : Nat)
    (acc : List String) (k : String) (v : Nat) (hmem : (k, v) ∈ l)
    (hold : time.Parse k = none ∨
      ∃ t, time.Parse k = some t ∧ ∀ m, time.Sub (clock m) t > defaultReserveMinutes) :
    k ∈ (scanKeys clock l n acc).1 := by
  induction l generalizing n acc with
  | nil => cases hmem
  | cons p rest ih =>
    obtain ⟨k2, v2⟩ := p
    rcases List.mem_cons.mp hmem with heq | hrest
    · simp only [Prod.mk.injEq] at heq
      obtain ⟨rfl, rfl⟩ := heq
      simp only [scanKeys]
      rcases hold with hnone | ⟨t, ht, hlate⟩
      · rw [hnone]
        exact scanKeys_keeps clock rest _ _ k (List.mem_append_right _ (List.mem_singleton_self k))
      · rw [ht]
        simp only [hlate n, if_true]
        exact scanKeys_keeps clock rest _ _ k (List.mem_append_right _ (List.mem_singleton_self k))
    · simp only [scanKeys]
      split
      · exact ih _ _ hrest
      · split
        · exact ih _ _ hrest
        · exact ih _ _ hrest

/-- With no shared hold outstanding the removal loop runs to its end and drops
exactly the bindings of the listed keys. -/
theorem removeKeys_free (ctx : ItemContext) (ks : List String) (h : ctx.readers = 0) :
    removeKeys ctx ks
      = ({ ctx with contextMap := ctx.contextMap.filter (fun p => decide (p.1 ∉ ks)) }, true) := by
  induction ks generalizing ctx with
  | nil => simp [removeKeys]
  | cons v vs ih =>
    simp only [removeKeys, ItemContext.Remove, h, if_true]
    rw [ih _ rfl]
    simp only [List.filter_filter, Prod.mk.injEq, and_true]
    congr 1
    apply List.filter_congr
    intro p _
    by_cases h1 : p.1 = v <;> by_cases h2 : p.1 ∈ vs <;> simp [h1, h2]

/-- With a shared hold outstanding the first `Remove` of the loop waits forever. -/
theorem removeKeys_held (ctx : ItemContext) (ks : List String) (h : ctx.readers ≠ 0)
    (hks : ks ≠ []) : removeKeys ctx ks = (ctx, false) := by
  cases ks with
  | nil => exact absurd rfl hks
  | cons v vs => simp [removeKeys, ItemContext.Remove, h]

theorem lookupKey_filter_none (k : String) (ks : List String) (l : List (String × Nat))
    (h : k ∈ ks) : lookupKey k (l.filter (fun p => decide (p.1 ∉ ks))) = none := by
  induction l with
  | nil => simp [lookupKey]
  | cons p rest ih =>
    obtain ⟨k2, v2⟩ := p
    by_cases h2 : k2 ∈ ks
    · simpa [List.filter_cons, h2] using ih
    · have hne : k2 ≠ k := fun e => h2 (e ▸ h)
      simp only [List.filter_cons, h2, not_false_eq_true, decide_True, if_true, lookupKey, hne,
        if_false]
      exact ih

/-- In the interval-request store, whose shared hold the sweeper gives back
before it removes, a run over more than 10 keys removes every key that does not
parse and every key that is too old at each clock reading. -/
theorem request_store_swept (state : ServerStateInfo) (clock : Nat → time.Time)
    (k : String) (v : Nat)
    (hfree : state.IntervalRequestData.readers = 0)
    (hlen : state.IntervalRequestData.Len > 10)
    (hmem : (k, v) ∈ state.IntervalRequestData.contextMap)
    (hold : time.Parse k = none ∨
      ∃ t, time.Parse k = some t ∧ ∀ m, time.Sub (clock m) t > defaultReserveMinutes) :
    (state.checkAndRemoveIntervalData clock).state.IntervalRequestData.Has k = false := by
  have hlen2 : state.IntervalRequestData.RLock.Len > 10 := hlen
  have hfree2 : state.IntervalRequestData.RLock.RUnlock.readers = 0 := by
    simp [ItemContext.RLock, ItemContext.RUnlock, hfree]
  have hk := scanKeys_marks clock state.IntervalRequestData.contextMap 0 [] k v hmem hold
  simp only [ServerStateInfo.checkAndRemoveIntervalData, hlen2, if_true,
    removeKeys_free _ _ hfree2]
  split <;>
    simpa [Outcome.state, ItemContext.Has, ItemContext.RLock, ItemContext.RUnlock,
      ItemContext.GetCurrentMap] using lookupKey_filter_none k _ _ hk

/-- In the interval-error store, whose shared hold the sweeper keeps, a run
over more than 10 keys of which one is marked never returns and removes
nothing. -/
theorem error_store_stuck (state : ServerStateInfo) (clock : Nat → time.Time)
    (k : String) (v : Nat)
    (hfree : state.IntervalRequestData.readers = 0)
    (hlen : state.IntervalErrorData.Len > 10)
    (hmem : (k, v) ∈ state.IntervalErrorData.contextMap)
    (hold : time.Parse k = none ∨
      ∃ t, time.Parse k = some t ∧ ∀ m, time.Sub (clock m) t > defaultReserveMinutes) :
    (state.checkAndRemoveIntervalData clock).isReturned = false ∧
    (state.checkAndRemoveIntervalData clock).state.IntervalErrorData.contextMap
      = state.IntervalErrorData.contextMap := by
  have hlen2 : state.IntervalErrorData.RLock.Len > 10 := hlen
  have hfree2 : state.IntervalRequestData.RLock.RUnlock.readers = 0 := by
    simp [ItemContext.RLock, ItemContext.RUnlock, hfree]
  have hheld : state.IntervalErrorData.RLock.readers ≠ 0 := by
    simp [ItemContext.RLock]
  have hne : ∀ n, (scanKeys clock state.IntervalErrorData.RLock.GetCurrentMap n []).1 ≠ [] := by
    intro n hnil
    have hk := scanKeys_marks clock state.IntervalErrorData.contextMap n [] k v hmem hold
    have : (scanKeys clock state.IntervalErrorData.RLock.GetCurrentMap n []).1
        = (scanKeys clock state.IntervalErrorData.contextMap n []).1 := rfl
    rw [this] at hnil
    rw [hnil] at hk
    cases hk
  simp only [ServerStateInfo.checkAndRemoveIntervalData, hlen2, if_true,
    removeKeys_free _ _ hfree2, removeKeys_held _ _ hheld (hne _)]
  simp [Outcome.state, Outcome.isReturned, ItemContext.RLock]

/-! ## The claims -/

/-- C1. A page that begins with the reserved text `/dotweb/` is suppressed:
`AddRequestCount` returns with the state as it was (so `TotalRequestCount`, the
detail-request-page store and the interval-request store are unchanged and no
Request record is queued), and `AddHttpCodeCount` returns with the state as it
was (the detail-http-code store is unchanged and no HttpCode record is queued). -/
theorem reserved_page_suppressed (state : ServerStateInfo) (rest : String) (code : Int)
    (num : Nat) :
    state.AddRequestCount (reservedPath ++ rest) num = some (state, state.TotalRequestCount)
    ∧ state.AddHttpCodeCount (reservedPath ++ rest) code num
        = some (state, state.TotalErrorCount) := by
  simp [ServerStateInfo.AddRequestCount, ServerStateInfo.AddHttpCodeCount, Index_reserved]

/-- C3. From the freshly initialised state, after any interleaving of
`AddRequestCount` calls (none on a reserved page) with worker steps that leaves
`dataChan_Request` empty, `TotalRequestCount` is the sum of all counts and the
detail-request-page store at `ToLower url` is the sum of the counts of the calls
whose page lower-cases to the same string, both modulo `2 ^ 64`. -/
theorem request_counts_add_up (ToLower : String → String) (start : time.Time)
    (tr : List Event) (final : ServerStateInfo)
    (hrun : run ToLower (init start) tr = some final)
    (hres : noReservedRequest tr = true)
    (hdone : final.dataChan_Request = []) :
    final.TotalRequestCount = (requestNums tr).sum % uint64Size ∧
    ∀ url : String, final.DetailRequestPageData.GetUInt64 (ToLower url)
      = (requestNumsAt ToLower (ToLower url) tr).sum % uint64Size := by
  constructor
  · have h := run_invariant ToLower (fun s => s.TotalRequestCount) (fun _ => 0) requestTotalOf
      (step_request_total ToLower) (step_request_total_bound ToLower) tr (init start) final hrun
      (by simp [init, uint64Size_pos])
    obtain ⟨hb, heq⟩ := h
    simp only [Nat.add_zero, init, Nat.zero_add] at heq
    rw [Nat.mod_eq_of_lt hb] at heq
    dsimp only at heq
    rw [heq, sum_requestTotalOf tr hres]
  · intro url
    have h := run_invariant ToLower (fun s => s.DetailRequestPageData.GetUInt64 (ToLower url))
      (fun s => pendingRequests ToLower (ToLower url) s.dataChan_Request)
      (requestAt ToLower (ToLower url))
      (step_request_detail ToLower (ToLower url)) (step_request_detail_bound ToLower (ToLower url))
      tr (init start) final hrun (by simp [init, NewItemContext, ItemContext.GetUInt64, lookupKey, uint64Size_pos])
    obtain ⟨hb, heq⟩ := h
    simp only [hdone, pendingRequests, init, NewItemContext, ItemContext.GetUInt64, lookupKey,
      List.map_nil, List.sum_nil, Nat.add_zero, Nat.zero_add] at heq hb
    rw [Nat.mod_eq_of_lt hb] at heq
    simp only [ItemContext.GetUInt64]
    rw [heq, sum_requestAt ToLower (ToLower url) tr hres]

set_option maxRecDepth 100000 in
/-- C3, worked example: one hundred calls `AddRequestCount("/a", 1)` give a
detail count of exactly 100 (and a total of 100). -/
theorem request_counts_add_up_witness :
    run asciiLower (init noon) hundredCalls = some hundredFinal ∧
    noReservedRequest hundredCalls = true ∧
    hundredFinal.dataChan_Request = [] ∧
    hundredFinal.TotalRequestCount = 100 ∧
    hundredFinal.DetailRequestPageData.GetUInt64 "/a" = 100 := by
  have hrun : run asciiLower (init noon) hundredCalls = some hundredFinal := by decide
  have hres : noReservedRequest hundredCalls = true := by decide
  have h := request_counts_add_up asciiLower noon hundredCalls hundredFinal hrun hres rfl
  refine ⟨hrun, hres, rfl, ?_, ?_⟩
  · rw [h.1]; decide
  · have h2 := h.2 "/a"
    have ha : asciiLower "/a" = "/a" := by decide
    rw [ha] at h2
    rw [h2]; decide

/-- C4. With `dataChan_Error` empty at the start, `AddErrorCount(page, err, a)`
followed by `AddErrorCount(page, err, b)`, interleaved in any way with the
worker and with calls of the other kinds, once the worker has applied both
Error records: the detail-error-page store at `ToLower page` and the
detail-error-message store at `err.Error()` have each grown by `a + b`
(modulo `2 ^ 64`). -/
theorem error_counts_add_up (ToLower : String → String) (state final : ServerStateInfo)
    (tr : List Event) (page : String) (err : GoError) (a b : Nat)
    (hq : state.dataChan_Error = [])
    (hpage : state.DetailErrorPageData.GetUInt64 (ToLower page) < uint64Size)
    (htext : state.DetailErrorData.GetUInt64 err.Error < uint64Size)
    (hcalls : errorCalls tr = [(page, err, a), (page, err, b)])
    (hrun : run ToLower state tr = some final)
    (hdone : final.dataChan_Error = []) :
    final.DetailErrorPageData.GetUInt64 (ToLower page)
      = (state.DetailErrorPageData.GetUInt64 (ToLower page) + (a + b)) % uint64Size ∧
    final.DetailErrorData.GetUInt64 err.Error
      = (state.DetailErrorData.GetUInt64 err.Error + (a + b)) % uint64Size := by
  constructor
  · obtain ⟨hb, heq⟩ := run_invariant ToLower
      (fun s => s.DetailErrorPageData.GetUInt64 (ToLower page))
      (fun s => pendingErrorPages ToLower (ToLower page) s.dataChan_Error)
      (errorPageAt ToLower (ToLower page))
      (step_error_page ToLower (ToLower page)) (step_error_page_bound ToLower (ToLower page))
      tr state final hrun hpage
    simp only [hdone, hq, pendingErrorPages, List.map_nil, List.sum_nil, Nat.add_zero,
      sum_errorPageAt, hcalls, List.map_cons, List.sum_cons, if_true] at heq hb
    rw [Nat.mod_eq_of_lt hb] at heq
    exact heq
  · obtain ⟨hb, heq⟩ := run_invariant ToLower
      (fun s => s.DetailErrorData.GetUInt64 err.Error)
      (fun s => pendingErrorTexts err.Error s.dataChan_Error)
      (errorTextAt err.Error)
      (step_error_text ToLower err.Error) (step_error_text_bound ToLower err.Error)
      tr state final hrun htext
    simp only [hdone, hq, pendingErrorTexts, List.map_nil, List.sum_nil, Nat.add_zero,
      sum_errorTextAt, hcalls, List.map_cons, List.sum_cons, if_true] at heq hb
    rw [Nat.mod_eq_of_lt hb] at heq
    exact heq

/-- C4, worked example: from empty stores, `AddErrorCount("/x", err, 3)` then
`AddErrorCount("/x", err, 2)` give 5 at `"/x"` in the detail-error-page store
and 5 at `err.Error()` in the detail-error-message store. -/
theorem error_counts_add_up_witness :
    (init noon).dataChan_Error = [] ∧
    errorCalls twoErrors = [("/x", boom, 3), ("/x", boom, 2)] ∧
    run asciiLower (init noon) twoErrors = some twoErrorsFinal ∧
    twoErrorsFinal.dataChan_Error = [] ∧
    twoErrorsFinal.DetailErrorPageData.GetUInt64 "/x" = 5 ∧
    twoErrorsFinal.DetailErrorData.GetUInt64 boom.Error = 5 := by
  have hrun : run asciiLower (init noon) twoErrors = some twoErrorsFinal := by decide
  have h := error_counts_add_up asciiLower (init noon) twoErrorsFinal twoErrors "/x" boom 3 2
    rfl (by decide) (by decide) rfl hrun rfl
  refine ⟨rfl, rfl, hrun, rfl, ?_, ?_⟩
  · have ha : asciiLower "/x" = "/x" := by decide
    have h1 := h.1
    rw [ha] at h1
    rw [h1]; decide
  · rw [h.2]; decide

/-- C2, counterexample: `AddErrorCount` on the reserved page `/dotweb/state`,
then the worker draining the error channel, changes `TotalErrorCount` (0 to 1)
and the three error stores (empty to one binding each). -/
theorem reserved_error_is_counted :
    strings.Index "/dotweb/state" reservedPath = 0 ∧
    run asciiLower (init noon) [.addError "/dotweb/state" boom 1, .handleError noon]
      = some reservedErrorFinal ∧
    reservedErrorFinal.dataChan_Error = [] ∧
    reservedErrorFinal.TotalErrorCount ≠ (init noon).TotalErrorCount ∧
    reservedErrorFinal.IntervalErrorData ≠ (init noon).IntervalErrorData ∧
    reservedErrorFinal.DetailErrorPageData ≠ (init noon).DetailErrorPageData ∧
    reservedErrorFinal.DetailErrorData ≠ (init noon).DetailErrorData := by
  refine ⟨by decide, by decide, rfl, by decide, by decide, by decide, by decide⟩

/-- C2, amended. `AddErrorCount` has no test of the reserved beginning: for a
page that begins with `/dotweb/`, the call followed by the worker applying the
record adds `num` (modulo `2 ^ 64`) to `TotalErrorCount`, to the interval-error
store at the minute key of the worker's clock reading, to the detail-error-page
store at `ToLower page` and to the detail-error-message store at `err.Error()`. -/
theorem reserved_error_not_suppressed (ToLower : String → String)
    (state final : ServerStateInfo) (rest : String) (err : GoError) (num : Nat) (now : time.Time)
    (hq : state.dataChan_Error = [])
    (hrun : run ToLower state [.addError (reservedPath ++ rest) err num, .handleError now]
      = some final) :
    final.TotalErrorCount = (state.TotalErrorCount + num) % uint64Size ∧
    final.IntervalErrorData.GetUInt64 (time.Format now)
      = (state.IntervalErrorData.GetUInt64 (time.Format now) + num) % uint64Size ∧
    final.DetailErrorPageData.GetUInt64 (ToLower (reservedPath ++ rest))
      = (state.DetailErrorPageData.GetUInt64 (ToLower (reservedPath ++ rest)) + num)
          % uint64Size ∧
    final.DetailErrorData.GetUInt64 err.Error
      = (state.DetailErrorData.GetUInt64 err.Error + num) % uint64Size := by
  obtain ⟨s1, h1, h2⟩ := run_pair ToLower state final _ _ hrun
  obtain ⟨_, rfl⟩ := step_addError ToLower state s1 _ err num h1
  obtain ⟨info, rest2, pg, detail, interval, hq2, hp, hd, hi, rfl⟩ :=
    step_handleError ToLower _ final now h2
  simp only [hq, List.nil_append, List.cons.injEq] at hq2
  obtain ⟨rfl, _⟩ := hq2
  refine ⟨rfl, ?_, ?_, ?_⟩
  · simpa using GetUInt64_Set _ _ _ (time.Format now) _ hi
  · simpa using GetUInt64_Set _ _ _ (ToLower (reservedPath ++ rest)) _ hp
  · simpa using GetUInt64_Set _ _ _ err.Error _ hd

/-- C2, amended, worked example on the page `/dotweb/state`. -/
theorem reserved_error_not_suppressed_witness :
    (init noon).dataChan_Error = [] ∧
    run asciiLower (init noon) [.addError (reservedPath ++ "state") boom 1, .handleError noon]
      = some reservedErrorFinal ∧
    reservedErrorFinal.TotalErrorCount = ((init noon).TotalErrorCount + 1) % uint64Size :=
  ⟨rfl, by decide,
    (reserved_error_not_suppressed asciiLower (init noon) reservedErrorFinal "state" boom 1 noon
      rfl (by decide)).1⟩

/-- C6. With the channel empty at the start, after `AddRequestCount(page, num)`
on a page without the reserved beginning has been applied by the worker at the
clock reading `now`, `QueryIntervalRequestData` of the minute key
`now.Format("200601021504")` returns its previous value plus `num` (`uint64`
addition: modulo `2 ^ 64`, and the plain sum when that fits in a `uint64`) and
every other key is unchanged; the same for `AddErrorCount` and
`QueryIntervalErrorData`. -/
theorem interval_query_round_trip (ToLower : String → String) (state : ServerStateInfo)
    (page : String) (err : GoError) (num : Nat) (now : time.Time)
    (hpage : strings.Index page reservedPath ≠ 0)
    (hreq : state.dataChan_Request = [])
    (herr : state.dataChan_Error = []) :
    (∀ final, run ToLower state [.addRequest page num, .handleRequest now] = some final →
      final.QueryIntervalRequestData (time.Format now)
        = (state.QueryIntervalRequestData (time.Format now) + num) % uint64Size ∧
      (state.QueryIntervalRequestData (time.Format now) + num < uint64Size →
        final.QueryIntervalRequestData (time.Format now)
          = state.QueryIntervalRequestData (time.Format now) + num) ∧
      ∀ k, k ≠ time.Format now →
        final.QueryIntervalRequestData k = state.QueryIntervalRequestData k) ∧
    (∀ final, run ToLower state [.addError page err num, .handleError now] = some final →
      final.QueryIntervalErrorData (time.Format now)
        = (state.QueryIntervalErrorData (time.Format now) + num) % uint64Size ∧
      (state.QueryIntervalErrorData (time.Format now) + num < uint64Size →
        final.QueryIntervalErrorData (time.Format now)
          = state.QueryIntervalErrorData (time.Format now) + num) ∧
      ∀ k, k ≠ time.Format now →
        final.QueryIntervalErrorData k = state.QueryIntervalErrorData k) := by
  constructor
  · intro final hrun
    obtain ⟨s1, h1, h2⟩ := run_pair ToLower state final _ _ hrun
    rcases step_addRequest ToLower state s1 page num h1 with ⟨h0, _⟩ | ⟨_, _, rfl⟩
    · exact absurd h0 hpage
    · obtain ⟨info, rest, detail, interval, hq, _, hi, rfl⟩ :=
        step_handleRequest ToLower _ final now h2
      simp only [hreq, List.nil_append, List.cons.injEq] at hq
      obtain ⟨rfl, _⟩ := hq
      have hkey : interval.GetUInt64 (time.Format now)
          = (state.IntervalRequestData.GetUInt64 (time.Format now) + num) % uint64Size := by
        simpa using GetUInt64_Set _ _ _ (time.Format now) _ hi
      refine ⟨hkey, ?_, ?_⟩
      · intro hfit
        show interval.GetUInt64 (time.Format now) = _
        rw [hkey]
        exact Nat.mod_eq_of_lt hfit
      · intro k hk
        have := GetUInt64_Set _ _ _ k _ hi
        simpa [ServerStateInfo.QueryIntervalRequestData, Ne.symm hk] using this
  · intro final hrun
    obtain ⟨s1, h1, h2⟩ := run_pair ToLower state final _ _ hrun
    obtain ⟨_, rfl⟩ := step_addError ToLower state s1 page err num h1
    obtain ⟨info, rest, pg, detail, interval, hq, _, _, hi, rfl⟩ :=
      step_handleError ToLower _ final now h2
    simp only [herr, List.nil_append, List.cons.injEq] at hq
    obtain ⟨rfl, _⟩ := hq
    have hkey : interval.GetUInt64 (time.Format now)
        = (state.IntervalErrorData.GetUInt64 (time.Format now) + num) % uint64Size := by
      simpa using GetUInt64_Set _ _ _ (time.Format now) _ hi
    refine ⟨hkey, ?_, ?_⟩
    · intro hfit
      show interval.GetUInt64 (time.Format now) = _
      rw [hkey]
      exact Nat.mod_eq_of_lt hfit
    · intro k hk
      have := GetUInt64_Set _ _ _ k _ hi
      simpa [ServerStateInfo.QueryIntervalErrorData, Ne.symm hk] using this

/-- C6, worked example: a request and an error on `/a` with count 4, applied at
12:30 on 2024-05-01, are read back under the key `202405011230`. -/
theorem interval_query_round_trip_witness :
    strings.Index "/a" reservedPath ≠ 0 ∧
    (init noon).dataChan_Request = [] ∧
    (init noon).dataChan_Error = [] ∧
    time.Format noon = "202405011230" ∧
    run asciiLower (init noon) [.addRequest "/a" 4, .handleRequest noon] = some oneRequestFinal ∧
    run asciiLower (init noon) [.addError "/a" boom 4, .handleError noon] = some oneErrorFinal ∧
    oneRequestFinal.QueryIntervalRequestData (time.Format noon)
      = ((init noon).QueryIntervalRequestData (time.Format noon) + 4) % uint64Size ∧
    oneErrorFinal.QueryIntervalErrorData (time.Format noon)
      = ((init noon).QueryIntervalErrorData (time.Format noon) + 4) % uint64Size :=
  ⟨by decide, rfl, rfl, by decide, by decide, by decide,
    ((interval_query_round_trip asciiLower (init noon) "/a" boom 4 noon (by decide) rfl rfl).1
      oneRequestFinal (by decide)).1,
    ((interval_query_round_trip asciiLower (init noon) "/a" boom 4 noon (by decide) rfl rfl).2
      oneErrorFinal (by decide)).1⟩

/-- C7, counterexample: two calls bring both counters from the initial 0 to the
largest `uint64`; one more `AddRequestCount("/a", 1)` and one more
`AddErrorCount("/a", err, 1)` wrap them to 0, below their values before the
call. -/
theorem counters_wrap_around :
    (run asciiLower (init noon) fullCounters).map
        (fun s => (s.TotalRequestCount, s.TotalErrorCount))
      = some (2 ^ 64 - 1, 2 ^ 64 - 1) ∧
    (run asciiLower (init noon) (fullCounters ++ [.addRequest "/a" 1])).map
        (fun s => s.TotalRequestCount) = some 0 ∧
    (run asciiLower (init noon) (fullCounters ++ [.addError "/a" boom 1])).map
        (fun s => s.TotalErrorCount) = some 0 := by
  refine ⟨by decide, by decide, by decide⟩

/-- C7, amended. Cumulative counters only increase as long as they do not
overflow: for every state and every call of `AddRequestCount`, `AddErrorCount`
or `AddHttpCodeCount` such that the counter the call adds to plus `num` is
below `2 ^ 64` (`TotalRequestCount` for `AddRequestCount`, `TotalErrorCount`
for `AddErrorCount`, none for `AddHttpCodeCount`), `TotalRequestCount` and
`TotalErrorCount` after the call are each at least their values before it. -/
theorem counters_monotone_without_overflow (state : ServerStateInfo) (page : String)
    (code : Int) (err : GoError) (num : Nat) :
    (∀ after r, state.AddRequestCount page num = some (after, r) →
      state.TotalRequestCount + num < uint64Size →
      state.TotalRequestCount ≤ after.TotalRequestCount ∧
      state.TotalErrorCount ≤ after.TotalErrorCount) ∧
    (∀ after r, state.AddHttpCodeCount page code num = some (after, r) →
      state.TotalRequestCount ≤ after.TotalRequestCount ∧
      state.TotalErrorCount ≤ after.TotalErrorCount) ∧
    (∀ after r, state.AddErrorCount page err num = some (after, r) →
      state.TotalErrorCount + num < uint64Size →
      state.TotalRequestCount ≤ after.TotalRequestCount ∧
      state.TotalErrorCount ≤ after.TotalErrorCount) := by
  refine ⟨?_, ?_, ?_⟩
  · intro after r h hreq
    have hs : step id state (.addRequest page num) = some after := by simp [step, h]
    rcases step_addRequest id state after page num hs with ⟨_, rfl⟩ | ⟨_, _, rfl⟩
    · exact ⟨le_refl _, le_refl _⟩
    · refine ⟨?_, le_refl _⟩
      show state.TotalRequestCount ≤ (state.TotalRequestCount + num) % uint64Size
      rw [Nat.mod_eq_of_lt hreq]
      exact Nat.le_add_right _ _
  · intro after r h
    have hs : step id state (.addHttpCode page code num) = some after := by simp [step, h]
    rcases step_addHttpCode id state after page code num hs with ⟨_, rfl⟩ | ⟨_, _, rfl⟩
    · exact ⟨le_refl _, le_refl _⟩
    · exact ⟨le_refl _, le_refl _⟩
  · intro after r h herr
    have hs : step id state (.addError page err num) = some after := by simp [step, h]
    obtain ⟨_, rfl⟩ := step_addError id state after page err num hs
    refine ⟨le_refl _, ?_⟩
    show state.TotalErrorCount ≤ (state.TotalErrorCount + num) % uint64Size
    rw [Nat.mod_eq_of_lt herr]
    exact Nat.le_add_right _ _

/-- C7, amended, worked example: with `TotalErrorCount` at the largest `uint64`,
`AddRequestCount("/a", 1)` and `AddHttpCodeCount("/a", 404, 1)` lower neither
counter; from the initial state `AddErrorCount("/a", err, 4)` lowers neither. -/
theorem counters_monotone_without_overflow_witness :
    errorCounterFull.TotalErrorCount = 2 ^ 64 - 1 ∧
    errorCounterFull.AddRequestCount "/a" 1 = some (errorFullRequested, 1) ∧
    errorCounterFull.TotalRequestCount + 1 < uint64Size ∧
    (errorCounterFull.TotalRequestCount ≤ errorFullRequested.TotalRequestCount ∧
      errorCounterFull.TotalErrorCount ≤ errorFullRequested.TotalErrorCount) ∧
    errorCounterFull.AddHttpCodeCount "/a" 404 1 = some (errorFullCoded, 2 ^ 64 - 1) ∧
    (errorCounterFull.TotalRequestCount ≤ errorFullCoded.TotalRequestCount ∧
      errorCounterFull.TotalErrorCount ≤ errorFullCoded.TotalErrorCount) ∧
    (init noon).AddErrorCount "/a" boom 4 = some (oneErrorQueued, 4) ∧
    (init noon).TotalErrorCount + 4 < uint64Size ∧
    ((init noon).TotalRequestCount ≤ oneErrorQueued.TotalRequestCount ∧
      (init noon).TotalErrorCount ≤ oneErrorQueued.TotalErrorCount) :=
  ⟨rfl, by decide, by decide,
    (counters_monotone_without_overflow errorCounterFull "/a" 404 boom 1).1
      errorFullRequested 1 (by decide) (by decide),
    by decide,
    (counters_monotone_without_overflow errorCounterFull "/a" 404 boom 1).2.1
      errorFullCoded (2 ^ 64 - 1) (by decide),
    by decide, by decide,
    (counters_monotone_without_overflow (init noon) "/a" 404 boom 4).2.2
      oneErrorQueued 4 (by decide) (by decide)⟩

/-- C8. An interval store (request or error) holding at most 10 keys comes out
of one run of `checkAndRemoveIntervalData` with the bindings it had, whatever
its keys and whatever the clock; with both stores that small the run returns. -/
theorem small_store_not_swept (state : ServerStateInfo) (clock : Nat → time.Time) :
    (state.IntervalRequestData.Len ≤ 10 →
      (state.checkAndRemoveIntervalData clock).state.IntervalRequestData.contextMap
        = state.IntervalRequestData.contextMap) ∧
    (state.IntervalErrorData.Len ≤ 10 →
      (state.checkAndRemoveIntervalData clock).state.IntervalErrorData.contextMap
        = state.IntervalErrorData.contextMap) ∧
    (state.IntervalRequestData.Len ≤ 10 → state.IntervalErrorData.Len ≤ 10 →
      (state.checkAndRemoveIntervalData clock).isReturned = true) := by
  refine ⟨?_, ?_, ?_⟩
  · intro h
    have h1 : ¬ (state.IntervalRequestData.RLock.Len > 10) := by
      simp only [ItemContext.Len, ItemContext.RLock] at h ⊢
      omega
    simp only [ServerStateInfo.checkAndRemoveIntervalData, h1, if_false, removeKeys]
    split <;> simp [Outcome.state, ItemContext.RLock, ItemContext.RUnlock]
  · intro h
    have h1 : ¬ (state.IntervalErrorData.RLock.Len > 10) := by
      simp only [ItemContext.Len, ItemContext.RLock] at h ⊢
      omega
    simp only [ServerStateInfo.checkAndRemoveIntervalData, h1, if_false, removeKeys]
    split <;> simp [Outcome.state, ItemContext.RLock]
  · intro h h2
    have h1 : ¬ (state.IntervalRequestData.RLock.Len > 10) := by
      simp only [ItemContext.Len, ItemContext.RLock] at h ⊢
      omega
    have h3 : ¬ (state.IntervalErrorData.RLock.Len > 10) := by
      simp only [ItemContext.Len, ItemContext.RLock] at h2 ⊢
      omega
    simp [ServerStateInfo.checkAndRemoveIntervalData, h1, h3, removeKeys, Outcome.isReturned]

/-- C8, worked example: two stale or malformed keys in each interval store stay
where they are. -/
theorem small_store_not_swept_witness :
    fewStale.IntervalRequestData.Len ≤ 10 ∧
    fewStale.IntervalErrorData.Len ≤ 10 ∧
    (fewStale.checkAndRemoveIntervalData (fun _ => noon)).state.IntervalRequestData.contextMap
      = [("199901010000", 4), ("junk", 1)] ∧
    (fewStale.checkAndRemoveIntervalData (fun _ => noon)).state.IntervalErrorData.contextMap
      = [("199901010000", 2), ("junk", 3)] ∧
    (fewStale.checkAndRemoveIntervalData (fun _ => noon)).isReturned = true :=
  ⟨by decide, by decide,
    (small_store_not_swept fewStale (fun _ => noon)).1 (by decide),
    (small_store_not_swept fewStale (fun _ => noon)).2.1 (by decide),
    (small_store_not_swept fewStale (fun _ => noon)).2.2 (by decide) (by decide)⟩

/-- C5, the code at the failing input: with eleven buckets from 12:20 to 12:30
and the clock at 12:30:00, the bucket `202405011225` parses, is five minutes
old (inside the sixty minutes of retention), and is gone after one run; only
the bucket of the current minute is left, the test being
`time.Now().Sub(t) > 60` nanoseconds. -/
theorem recent_bucket_evicted :
    busyRequests.IntervalRequestData.Len = 11 ∧
    time.Parse "202405011225" = some { unixNano := 1714566300000000000, offset := 0 } ∧
    time.Sub noon { unixNano := 1714566300000000000, offset := 0 } = 5 * 60 * 1000000000 ∧
    busyRequests.IntervalRequestData.GetUInt64 "202405011225" = 6 ∧
    busyRequests.IntervalRequestData.Has "202405011225" = true ∧
    (busyRequests.checkAndRemoveIntervalData (fun _ => noon)).state.IntervalRequestData.Has
      "202405011225" = false ∧
    (busyRequests.checkAndRemoveIntervalData (fun _ => noon)).state.IntervalRequestData.contextMap
      = [("202405011230", 11)] := by
  refine ⟨by decide, by decide, by decide, by decide, by decide, by decide, by decide⟩

/-- C9, the code at the failing input: the interval-error store holds eleven
keys, one of which does not parse; the run never returns (its `Remove` waits for
the exclusive lock while the shared hold taken for the scan is still
outstanding) and the key is still in the store.  In the interval-request store
the same bindings lose the key and the run returns. -/
theorem bad_error_key_not_removed :
    badErrorKey.IntervalErrorData.Len = 11 ∧
    time.Parse "not-a-minute" = none ∧
    (badErrorKey.checkAndRemoveIntervalData (fun _ => noon)).isReturned = false ∧
    (badErrorKey.checkAndRemoveIntervalData (fun _ => noon)).state.IntervalErrorData.Has
      "not-a-minute" = true ∧
    (badRequestKey.checkAndRemoveIntervalData (fun _ => noon)).isReturned = true ∧
    (badRequestKey.checkAndRemoveIntervalData (fun _ => noon)).state.IntervalRequestData.Has
      "not-a-minute" = false := by
  refine ⟨by decide, by decide, by decide, by decide, by decide, by decide⟩

/-- C10, the code at the failing input: on the freshly initialised state the
run returns with one shared hold on the interval-error store outstanding (and
none on the interval-request store); with eleven buckets in the interval-error
store the first `Remove` is reached with that hold outstanding and the run is
stuck there. -/
theorem error_store_lock_not_released :
    (init noon).IntervalErrorData.readers = 0 ∧
    (init noon).checkAndRemoveIntervalData (fun _ => noon)
      = .returned { init noon with IntervalErrorData := { contextMap := [], readers := 1 } } ∧
    busyErrors.IntervalErrorData.readers = 0 ∧
    busyErrors.checkAndRemoveIntervalData (fun _ => noon)
      = .blocked { busyErrors with
          IntervalErrorData := { contextMap := recentBuckets, readers := 1 } } := by
  refine ⟨rfl, by decide, rfl, by decide⟩

end core
